import Mathlib

set_option maxHeartbeats 1000000

/-!
Shallow embedding of the ScaLaMa lab-provisioning engine (Go sources:
`kube-helper.go`, `student.go`, and the HTTP/orchestrator file) and proofs
about its namespace derivation, RBAC bootstrap, manifest distribution,
service-account polling, and lab deletion logic.

Strings manipulated character-by-character by the Go code are modelled as
`List Char` (Lean's `String` is a wrapper around such a list); remote
cluster state is modelled as explicit state records threaded through the
functions, and fallible remote calls as `Except`/oracle functions.
-/

/-- A roster entry, from `student.go`: external id, display name, and the
parsed group number (`-1` is the sentinel for "no group"). -/
structure Student where
  id : String
  name : String
  group : Int
deriving DecidableEq

/-- Go `strings.Split` with a one-character separator, on the character-list
model of strings: returns the first chunk paired with the remaining chunks. -/
def splitChunks (sep : Char) : List Char → List Char × List (List Char)
  | [] => ([], [])
  | c :: rest =>
    let p := splitChunks sep rest
    if c = sep then ([], p.1 :: p.2) else (c :: p.1, p.2)

/-- Go `strings.Split(s, sep)` for a one-character separator: the list of
chunks (always non-empty, like Go's). -/
def goSplit (sep : Char) (s : List Char) : List (List Char) :=
  (splitChunks sep s).1 :: (splitChunks sep s).2

/-- Go `strings.Join(chunks, sep)` for a one-character separator. -/
def goJoin (sep : Char) : List (List Char) → List Char
  | [] => []
  | [x] => x
  | x :: y :: t => x ++ sep :: goJoin sep (y :: t)

/-- Go `strings.ToLower` on the character-list model. -/
def goToLower (s : List Char) : List Char := s.map Char.toLower

/-- The slug computed at line 37 of the orchestrator:
`strings.ToLower(strings.Join(strings.Split(student.name, " "), "-"))`. -/
def studentSlug (name : String) : String :=
  ⟨goToLower (goJoin '-' (goSplit ' ' name.data))⟩

/-- The group-mode loop of `getNamespaceNames`: walks the roster keeping a
`visited` set of group numbers (the Go code's `map[int]bool`), emitting
`ns-<lab>-group-<d>` for each first-seen non-sentinel group. -/
def groupNamespacesLoop (labName : String) : List Student → List Int → List String
  | [], _ => []
  | student :: rest, visited =>
    if student.group ≠ -1 ∧ ¬ visited.contains student.group then
      ("ns-" ++ labName ++ "-group-" ++ toString student.group)
        :: groupNamespacesLoop labName rest (student.group :: visited)
    else groupNamespacesLoop labName rest visited

/-- `getNamespaceNames(students, labName, isIndividual)` from the
orchestrator: the list of tenant namespace names to create. -/
def getNamespaceNames (students : List Student) (labName : String)
    (isIndividual : Bool) : List String :=
  if isIndividual then
    students.map (fun student => "ns-" ++ labName ++ "-" ++ studentSlug student.name)
  else
    groupNamespacesLoop labName students []

/-- Spec-side slug ("the entry's display name lowercased with spaces
replaced by hyphens"), stated independently of the split/join route the
source takes; compared against `studentSlug` in the C8 theorem. -/
def spec_slug (name : String) : String :=
  ⟨name.data.map (fun c => if c = ' ' then '-' else c.toLower)⟩

/-- Spec-side first-seen-order deduplication of group numbers; compared
against the `visited`-map loop of the source in the C7 theorem. -/
def firstSeenDedup : List Int → List Int
  | [] => []
  | g :: rest => g :: firstSeenDedup (rest.filter (fun x => x != g))
termination_by l => l.length
decreasing_by
  exact Nat.lt_succ_of_le (List.length_filter_le _ _)

/-- Cluster state seen by the Namespace Manager: the namespaces that exist,
plus a count of namespace-creation calls issued (for the idempotence claim). -/
structure NsCluster where
  namespaces : List String
  createCalls : Nat
deriving DecidableEq

/-- `namespaceExists` from `kube-helper.go`: lists all namespaces and scans
for an exact name match. -/
def namespaceExists (s : NsCluster) (name : String) : Bool :=
  s.namespaces.any (fun n => n == name)

/-- `createNamespace` from `kube-helper.go`: issues one creation call. -/
def createNamespace (s : NsCluster) (name : String) : NsCluster :=
  { namespaces := s.namespaces ++ [name], createCalls := s.createCalls + 1 }

/-- The ensure step inlined in `createLabEnvironment` (existence check, then
conditional create); the returned Bool is whether the namespace was newly
created, i.e. whether it gets appended to `newNamespaces`. -/
def ensureNamespace (s : NsCluster) (name : String) : NsCluster × Bool :=
  if namespaceExists s name then (s, false) else (createNamespace s name, true)

/-! Manifest distributor model (`handleManifest` in `kube-helper.go`).

A decoded manifest document carries a name and an optional `metadata`
section, itself carrying an optional boolean `single_instance` flag.  The
input stream yields its documents in order and then terminates either at
end-of-stream or with a decode error; `StreamEnd` records which.  A Go
`panic` caused by the unguarded type assertion
`unstructuredMap["metadata"].(map[string]interface{})` on a document with
no metadata key is modelled as the abnormal outcome
`HMErr.panicInterfaceConversion`. -/

/-- The `metadata` section of a decoded document: only the
`single_instance` flag matters to `handleManifest`. -/
structure DocMetadata where
  single_instance : Option Bool
deriving DecidableEq

/-- One decoded manifest document. -/
structure ManifestDoc where
  name : String
  metadata : Option DocMetadata
deriving DecidableEq

/-- How the decoder terminates after yielding all documents. -/
inductive StreamEnd
  | eof
  | decodeError (code : Nat)
deriving DecidableEq

/-- A manifest byte stream, as seen through the YAML/JSON decoder. -/
structure ManifestStream where
  docs : List ManifestDoc
  fin : StreamEnd
deriving DecidableEq

/-- Abnormal outcomes of `handleManifest`: a propagated decode error, or
the runtime panic of the metadata type assertion. -/
inductive HMErr
  | decodeFailure (code : Nat)
  | panicInterfaceConversion
deriving DecidableEq

/-- One object creation issued through the dynamic client: the object name
and the namespace the object's namespace field was set to. -/
structure CreatedObject where
  name : String
  ns : String
deriving DecidableEq

/-- The flag extraction of lines 190–195 / 228–233: asserts the metadata
section to a map (panicking when the key is absent), then reads
`single_instance`, absent meaning `true`. -/
def docSingleInstance (d : ManifestDoc) : Except HMErr Bool :=
  match d.metadata with
  | none => .error .panicInterfaceConversion
  | some m => .ok (m.single_instance.getD true)

/-- The first pass of `handleManifest` (lines 183–208): creates every
singleton document in the lab namespace `ns-<labName>`.  Returns the
creations issued so far paired with the abnormal outcome, if any, that
stopped the loop body. -/
def singletonPass (labName : String) : List ManifestDoc → List CreatedObject × Option HMErr
  | [] => ([], none)
  | d :: rest =>
    match docSingleInstance d with
    | .error e => ([], some e)
    | .ok true =>
      let p := singletonPass labName rest
      (⟨d.name, "ns-" ++ labName⟩ :: p.1, p.2)
    | .ok false => singletonPass labName rest

/-- The second pass of `handleManifest` (lines 222–250): for every
non-singleton document, creates one copy per namespace in `namespaces`,
with the object's namespace field overwritten to that namespace. -/
def perNamespacePass (namespaces : List String) : List ManifestDoc → List CreatedObject × Option HMErr
  | [] => ([], none)
  | d :: rest =>
    match docSingleInstance d with
    | .error e => ([], some e)
    | .ok true => perNamespacePass namespaces rest
    | .ok false =>
      let p := perNamespacePass namespaces rest
      (namespaces.map (fun n => ⟨d.name, n⟩) ++ p.1, p.2)

/-- `handleManifest(clientset, dynamicInterface, file, labName, namespaces,
labExists)`: returns the list of object creations issued (in order) and the
overall outcome.  Faithful to the source in two delicate points: (1) when
`labExists` is false the stream is teed into a buffer during the first pass
and replayed for the second; (2) after the second pass the code checks the
OUTER `err` variable — the loop at line 223 declares its own `err` with
`:=` — so the outer value is `io.EOF` (first pass ran) or `nil`
(`labExists`), and in both cases a decode error that stopped the second
pass's loop is swallowed and the function returns success. -/
def handleManifest (stream : ManifestStream) (labName : String)
    (namespaces : List String) (labExists : Bool) :
    List CreatedObject × Except HMErr Unit :=
  if labExists then
    -- outer err stays nil: the final `if err != io.EOF` returns that nil
    let p2 := perNamespacePass namespaces stream.docs
    match p2.2 with
    | some e => (p2.1, .error e)
    | none => (p2.1, .ok ())
  else
    let p1 := singletonPass labName stream.docs
    match p1.2 with
    | some e => (p1.1, .error e)
    | none =>
      match stream.fin with
      | .decodeError c => (p1.1, .error (.decodeFailure c))
      | .eof =>
        -- outer err = io.EOF from the first pass; the buffered copy replays
        -- the same documents (and the same terminal, which is EOF here)
        let p2 := perNamespacePass namespaces stream.docs
        match p2.2 with
        | some e => (p1.1 ++ p2.1, .error e)
        | none => (p1.1 ++ p2.1, .ok ())

/-- Boolean view of the singleton flag for documents whose metadata section
is present (so the extraction does not panic). -/
def isSingletonDoc (d : ManifestDoc) : Bool :=
  match d.metadata with
  | none => true
  | some m => m.single_instance.getD true

/-! RBAC bootstrap model (`createNamespaceClusterRoleIfNotExists`,
`readNamespaceClusterRoleExists`, `createReadNamespacesClusterRole`). -/

/-- One RBAC policy rule. -/
structure PolicyRule where
  apiGroups : List String
  verbs : List String
  resources : List String
deriving DecidableEq

/-- A cluster-scoped role. -/
structure ClusterRole where
  name : String
  rules : List PolicyRule
deriving DecidableEq

/-- The cluster-wide role built by `createReadNamespacesClusterRole`:
name `read-namespaces-cr`, one rule with `APIGroups: [""]` (the core API
group), verbs `get`/`list`, resources `namespaces`. -/
def readNamespacesClusterRoleDef : ClusterRole :=
  { name := "read-namespaces-cr"
    rules := [{ apiGroups := [""], verbs := ["get", "list"], resources := ["namespaces"] }] }

/-- Cluster-scoped RBAC state: the cluster roles present and the number of
cluster-role creation calls issued. -/
structure RbacCluster where
  clusterRoles : List ClusterRole
  createCalls : Nat
deriving DecidableEq

/-- `readNamespaceClusterRoleExists`: Gets the role by name, classifying a
not-found as absence. -/
def readNamespaceClusterRoleExists (s : RbacCluster) : Bool :=
  s.clusterRoles.any (fun r => r.name == "read-namespaces-cr")

/-- `createReadNamespacesClusterRole`: issues one cluster-role creation. -/
def createReadNamespacesClusterRole (s : RbacCluster) : RbacCluster :=
  { clusterRoles := s.clusterRoles ++ [readNamespacesClusterRoleDef]
    createCalls := s.createCalls + 1 }

/-- `createNamespaceClusterRoleIfNotExists`: the process-start bootstrap
guard — create the role only when the existence check reports it absent. -/
def createNamespaceClusterRoleIfNotExists (s : RbacCluster) : RbacCluster :=
  if readNamespaceClusterRoleExists s then s else createReadNamespacesClusterRole s

/-- RBAC rule semantics: whether a role grants `verb` on `resource` in API
group `group` (a rule applies to a group when its `apiGroups` names the
group or contains the wildcard).  Used to state what "across all API
groups" would require of the created role. -/
def roleGrants (r : ClusterRole) (group verb resource : String) : Bool :=
  r.rules.any (fun rule =>
    (rule.apiGroups.contains group || rule.apiGroups.contains "*")
    && (rule.verbs.contains verb || rule.verbs.contains "*")
    && (rule.resources.contains resource || rule.resources.contains "*"))

/-! Lab deletion model (`deleteLab`, orchestrator lines 300–337). -/

/-- Go `strings.HasPrefix`, on the character-list model of strings. -/
def goHasPrefix (p s : String) : Bool :=
  p.data.isPrefixOf s.data

/-- The namespace-match test of line 313: exact `ns-<labName>` or the
`ns-<labName>-` name start. -/
def deleteNsMatches (labName name : String) : Bool :=
  name == "ns-" ++ labName || goHasPrefix ("ns-" ++ labName ++ "-") name

/-- The binding-match test of line 329: the `read-namespaces-crb-<labName>-`
name start. -/
def deleteCrbMatches (labName name : String) : Bool :=
  goHasPrefix ("read-namespaces-crb-" ++ labName ++ "-") name

/-- One delete loop of `deleteLab`: walk the listed objects in order, delete
every one matching, stop at the first deletion error (`fails` is the oracle
for whether the remote Delete call on a given name errors).  Returns the
names actually deleted and whether the loop aborted on an error. -/
def deleteMatchingLoop (matchP : String → Bool) (fails : String → Bool) :
    List String → List String × Bool
  | [] => ([], false)
  | n :: rest =>
    if matchP n then
      if fails n then ([], true)
      else
        let p := deleteMatchingLoop matchP fails rest
        (n :: p.1, p.2)
    else deleteMatchingLoop matchP fails rest

/-- `deleteLab(labName)` over listed namespaces and cluster-role-binding
names: first the namespace loop, and only if it finishes without error the
binding loop.  Returns (namespaces deleted, bindings deleted, aborted). -/
def deleteLab (labName : String) (namespaces crbs : List String)
    (nsDeleteFails crbDeleteFails : String → Bool) :
    List String × List String × Bool :=
  let pns := deleteMatchingLoop (deleteNsMatches labName) nsDeleteFails namespaces
  if pns.2 then (pns.1, [], true)
  else
    let pcrb := deleteMatchingLoop (deleteCrbMatches labName) crbDeleteFails crbs
    (pns.1, pcrb.1, pcrb.2)

/-! Service-account provisioning model (`createServiceAccount`,
RBAC file lines 159–194). -/

/-- A secret: a map from field names to values (Go `Data map[string][]byte`;
a missing key reads as the empty value). -/
structure KubeSecret where
  data : List (String × String)
deriving DecidableEq

/-- Indexing `secret.Data[key]`: the value, or empty when the key is
absent. -/
def KubeSecret.getData (s : KubeSecret) (key : String) : String :=
  match s.data.find? (fun p => p.1 == key) with
  | some p => p.2
  | none => ""

/-- The remote environment `createServiceAccount` talks to:
`createResult` is the outcome of the ServiceAccount Create call;
`fetchResult n` is the outcome of the n-th re-fetch (Get) of the account,
giving the names of its associated secrets; `getSecret` is the Secrets Get
call. -/
structure SAEnv where
  createResult : Except String Unit
  fetchResult : Nat → Except String (List String)
  getSecret : String → Except String KubeSecret

/-- The unbounded re-fetch loop of lines 176–185, with explicit fuel so it
is a total Lean function: `none` means the loop is still running after
`fuel` iterations (the Go loop has no bound, timeout, or backoff); `some`
is the outcome that ends the loop — the first fetch error, or the name of
the first secret of the first fetch reporting a non-empty secret list. -/
def pollSecrets (env : SAEnv) : Nat → Nat → Option (Except String String)
  | 0, _ => none
  | fuel + 1, i =>
    match env.fetchResult i with
    | .error e => some (.error e)
    | .ok [] => pollSecrets env fuel (i + 1)
    | .ok (s :: _) => some (.ok s)

/-- `createServiceAccount(clientset, username, namespace)`: Create, poll
until a secret reference appears, Get that secret, return its `token`
field.  `none` means the call has not returned within `fuel` loop
iterations. -/
def createServiceAccount (env : SAEnv) (fuel : Nat) : Option (Except String String) :=
  match env.createResult with
  | .error e => some (.error e)
  | .ok () =>
    match pollSecrets env fuel 0 with
    | none => none
    | some (.error e) => some (.error e)
    | some (.ok secretName) =>
      match env.getSecret secretName with
      | .error e => some (.error e)
      | .ok secret => some (.ok (secret.getData "token"))

/-! Tenant-key recovery model (orchestrator line 185:
`username := strings.Replace(namespace, "ns-"+labName+"-", "", -1)`). -/

/-- Go `strings.Replace(s, pat, "", -1)` for a non-empty pattern, on the
character-list model: delete every non-overlapping occurrence of `pat`,
scanning left to right. -/
def goReplaceAllEmpty (pat : List Char) : List Char → List Char
  | [] => []
  | c :: rest =>
    if pat ≠ [] ∧ pat.isPrefixOf (c :: rest) then
      goReplaceAllEmpty pat ((c :: rest).drop pat.length)
    else c :: goReplaceAllEmpty pat rest
termination_by s => s.length
decreasing_by
  · rename_i h
    have hp : 0 < pat.length := List.length_pos.mpr h.1
    simp [List.length_drop]
    omega
  · simp

/-- Whether `pat` occurs as a contiguous substring of `s`. -/
def hasOccurrence (pat : List Char) : List Char → Bool
  | [] => pat.isEmpty
  | c :: rest => pat.isPrefixOf (c :: rest) || hasOccurrence pat rest

/-- The delimiter deleted at line 185: `"ns-" + labName + "-"`. -/
def nsKeyDelim (labName : String) : List Char := ("ns-" ++ labName ++ "-").data

/-- Line 185: recover the tenant key (username) from a namespace name by
deleting every occurrence of `ns-<labName>-`. -/
def usernameFromNamespace (labName : String) (ns : List Char) : List Char :=
  goReplaceAllEmpty (nsKeyDelim labName) ns

-- Helper lemmas about split/join: rejoining the space-split of a string with
-- hyphens is exactly per-character replacement of spaces by hyphens.

lemma goJoin_cons_cons (sep c : Char) (h : List Char) (t : List (List Char)) :
    goJoin sep ((c :: h) :: t) = c :: goJoin sep (h :: t) := by
  cases t with
  | nil => rfl
  | cons y t' => rfl

lemma goJoin_goSplit (s : List Char) :
    goJoin '-' (goSplit ' ' s) = s.map (fun c => if c = ' ' then '-' else c) := by
  induction s with
  | nil => rfl
  | cons c rest ih =>
    have hsplit : goSplit ' ' rest = (splitChunks ' ' rest).1 :: (splitChunks ' ' rest).2 := rfl
    by_cases hc : c = ' '
    · subst hc
      have h1 : goSplit ' ' (' ' :: rest)
          = [] :: (splitChunks ' ' rest).1 :: (splitChunks ' ' rest).2 := by
        simp [goSplit, splitChunks]
      rw [h1]
      have h2 : goJoin '-' ([] :: (splitChunks ' ' rest).1 :: (splitChunks ' ' rest).2)
          = '-' :: goJoin '-' ((splitChunks ' ' rest).1 :: (splitChunks ' ' rest).2) := rfl
      rw [h2, ← hsplit, ih]
      simp
    · have h1 : goSplit ' ' (c :: rest)
          = (c :: (splitChunks ' ' rest).1) :: (splitChunks ' ' rest).2 := by
        simp [goSplit, splitChunks, hc]
      rw [h1, goJoin_cons_cons, ← hsplit, ih]
      simp [hc]

lemma studentSlug_eq_spec (name : String) : studentSlug name = spec_slug name := by
  unfold studentSlug spec_slug goToLower
  rw [goJoin_goSplit]
  congr 1
  rw [List.map_map]
  apply List.map_congr_left
  intro c _
  by_cases hc : c = ' '
  · subst hc; rfl
  · simp [hc]

-- The group-mode loop, generalized over the visited set, equals first-seen
-- deduplication of the not-yet-visited, non-sentinel group numbers.

lemma groupNamespacesLoop_eq (labName : String) (students : List Student) (visited : List Int) :
    groupNamespacesLoop labName students visited
      = (firstSeenDedup ((students.map Student.group).filter
          (fun g => g != -1 && !visited.contains g))).map
          (fun g => "ns-" ++ labName ++ "-group-" ++ toString g) := by
  induction students generalizing visited with
  | nil => simp [groupNamespacesLoop, firstSeenDedup]
  | cons s rest ih =>
    by_cases hg : s.group ≠ -1 ∧ ¬ visited.contains s.group
    · have hcont : visited.contains s.group = false := by
        cases h : visited.contains s.group
        · rfl
        · exact absurd h hg.2
      have hb : (s.group != -1 && !visited.contains s.group) = true := by
        rw [hcont]
        simp [hg.1]
      rw [groupNamespacesLoop, if_pos hg, List.map_cons, List.filter_cons, hb]
      rw [if_pos rfl, firstSeenDedup, List.map_cons, ih]
      congr 2
      rw [List.filter_filter]
      congr 1
      apply List.filter_congr
      intro g _
      show (g != -1 && !(s.group :: visited).contains g)
        = ((g != s.group) && (g != -1 && !visited.contains g))
      by_cases h1 : g = -1 <;> by_cases h2 : g = s.group <;> by_cases h3 : g ∈ visited <;>
        simp_all
    · have hb : (s.group != -1 && !visited.contains s.group) = false := by
        rcases Decidable.not_and_iff_or_not.mp hg with h | h
        · have h' : s.group = -1 := Decidable.not_not.mp h
          simp [h']
        · have h' : visited.contains s.group = true := Decidable.not_not.mp h
          rw [h']
          simp
      rw [groupNamespacesLoop, if_neg hg, List.map_cons, List.filter_cons, hb]
      rw [if_neg (by simp), ih]

-- Manifest pass characterizations for streams whose documents all carry a
-- metadata section (so the flag extraction never panics).

lemma docSingleInstance_of_isSome (d : ManifestDoc) (h : d.metadata.isSome) :
    docSingleInstance d = .ok (isSingletonDoc d) := by
  obtain ⟨m, hm⟩ := Option.isSome_iff_exists.mp h
  rw [docSingleInstance, isSingletonDoc, hm]

lemma singletonPass_eq (labName : String) (docs : List ManifestDoc)
    (h : ∀ d ∈ docs, d.metadata.isSome) :
    singletonPass labName docs
      = ((docs.filter isSingletonDoc).map (fun d => ⟨d.name, "ns-" ++ labName⟩), none) := by
  induction docs with
  | nil => rfl
  | cons d rest ih =>
    have hd := docSingleInstance_of_isSome d (h d (by simp))
    have hrest := ih (fun d' hd' => h d' (List.mem_cons_of_mem _ hd'))
    cases hs : isSingletonDoc d <;>
      simp [singletonPass, hd, hs, hrest, List.filter_cons]

lemma perNamespacePass_eq (namespaces : List String) (docs : List ManifestDoc)
    (h : ∀ d ∈ docs, d.metadata.isSome) :
    perNamespacePass namespaces docs
      = ((docs.filter (fun d => !isSingletonDoc d)).flatMap
          (fun d => namespaces.map (fun n => ⟨d.name, n⟩)), none) := by
  induction docs with
  | nil => rfl
  | cons d rest ih =>
    have hd := docSingleInstance_of_isSome d (h d (by simp))
    have hrest := ih (fun d' hd' => h d' (List.mem_cons_of_mem _ hd'))
    cases hs : isSingletonDoc d <;>
      simp [perNamespacePass, hd, hs, hrest, List.filter_cons]

-- Delete-loop characterization: the deleted names are the matching names up
-- to (and excluding) the first one whose Delete call errors; the loop
-- aborts exactly when some matching name's Delete call errors.

lemma deleteMatchingLoop_eq (matchP fails : String → Bool) (l : List String) :
    deleteMatchingLoop matchP fails l
      = ((l.filter matchP).takeWhile (fun n => !fails n), (l.filter matchP).any fails) := by
  induction l with
  | nil => rfl
  | cons n rest ih =>
    by_cases hm : matchP n
    · by_cases hf : fails n
      · simp [deleteMatchingLoop, hm, hf, List.filter_cons, List.takeWhile_cons]
      · simp [deleteMatchingLoop, hm, hf, List.filter_cons, List.takeWhile_cons, ih]
    · simp [deleteMatchingLoop, hm, List.filter_cons, ih]

lemma takeWhile_eq_self_of_not_any (fails : String → Bool) (l : List String)
    (h : l.any fails = false) : l.takeWhile (fun n => !fails n) = l := by
  induction l with
  | nil => rfl
  | cons n rest ih =>
    rw [List.any_cons, Bool.or_eq_false_iff] at h
    rw [List.takeWhile_cons, h.1]
    simp [ih h.2]

-- Polling lemmas: the credential loop is fuel-independent once a fetch is
-- decisive, and never returns when every fetch reports no secrets.

lemma pollSecrets_skip (env : SAEnv) :
    ∀ (k fuel i : Nat), (∀ j, j < k → env.fetchResult (i + j) = .ok []) → k < fuel →
      pollSecrets env fuel i = pollSecrets env (fuel - k) (i + k) := by
  intro k
  induction k with
  | zero => intro fuel i _ _; simp
  | succ k' ih =>
    intro fuel i h hfuel
    obtain ⟨f, rfl⟩ : ∃ f, fuel = f + 1 := ⟨fuel - 1, by omega⟩
    have h0 : env.fetchResult i = .ok [] := by
      have := h 0 (Nat.succ_pos _)
      rwa [Nat.add_zero] at this
    rw [pollSecrets, h0]
    have hrec := ih f (i + 1)
      (fun j hj => by
        have := h (j + 1) (Nat.succ_lt_succ hj)
        rwa [show i + (j + 1) = i + 1 + j by omega] at this)
      (by omega)
    rw [hrec]
    have e1 : f - k' = f + 1 - (k' + 1) := by omega
    have e2 : i + 1 + k' = i + (k' + 1) := by omega
    rw [e1, e2]

lemma pollSecrets_finds (env : SAEnv) (k fuel : Nat) (s : String) (rest : List String)
    (h : ∀ j, j < k → env.fetchResult j = .ok [])
    (hk : env.fetchResult k = .ok (s :: rest)) (hfuel : k < fuel) :
    pollSecrets env fuel 0 = some (.ok s) := by
  have hskip := pollSecrets_skip env k fuel 0 (fun j hj => by simpa using h j hj) hfuel
  rw [Nat.zero_add] at hskip
  obtain ⟨m, hm⟩ : ∃ m, fuel - k = m + 1 := ⟨fuel - k - 1, by omega⟩
  rw [hskip, hm, pollSecrets, hk]

lemma pollSecrets_errors (env : SAEnv) (k fuel : Nat) (e : String)
    (h : ∀ j, j < k → env.fetchResult j = .ok [])
    (hk : env.fetchResult k = .error e) (hfuel : k < fuel) :
    pollSecrets env fuel 0 = some (.error e) := by
  have hskip := pollSecrets_skip env k fuel 0 (fun j hj => by simpa using h j hj) hfuel
  rw [Nat.zero_add] at hskip
  obtain ⟨m, hm⟩ : ∃ m, fuel - k = m + 1 := ⟨fuel - k - 1, by omega⟩
  rw [hskip, hm, pollSecrets, hk]

lemma pollSecrets_diverges (env : SAEnv) (h : ∀ n, env.fetchResult n = .ok []) :
    ∀ fuel i, pollSecrets env fuel i = none := by
  intro fuel
  induction fuel with
  | zero => intro i; rfl
  | succ f ih => intro i; rw [pollSecrets, h i]; exact ih (i + 1)


-- Replace-all lemmas: deleting every occurrence of a non-empty pattern from
-- `pat ++ key` first cancels the leading occurrence, is the identity on
-- occurrence-free strings, and strictly shortens strings containing an
-- occurrence.

lemma isPrefixOf_append_self (p s : List Char) : p.isPrefixOf (p ++ s) = true := by
  induction p with
  | nil => simp [List.isPrefixOf]
  | cons c pt ih => simp [List.isPrefixOf, ih]

lemma goReplaceAllEmpty_cancel (pat s : List Char) (hp : pat ≠ []) :
    goReplaceAllEmpty pat (pat ++ s) = goReplaceAllEmpty pat s := by
  cases pat with
  | nil => exact absurd rfl hp
  | cons c pt =>
    have h2 : (c :: pt) ++ s = c :: (pt ++ s) := rfl
    rw [h2, goReplaceAllEmpty]
    rw [if_pos ⟨hp, by rw [← h2]; exact isPrefixOf_append_self _ _⟩]
    congr 1
    rw [← h2]
    exact List.drop_left _ _

lemma goReplaceAllEmpty_of_not_occur (pat s : List Char)
    (h : hasOccurrence pat s = false) : goReplaceAllEmpty pat s = s := by
  induction s with
  | nil => simp [goReplaceAllEmpty]
  | cons c rest ih =>
    rw [hasOccurrence, Bool.or_eq_false_iff] at h
    rw [goReplaceAllEmpty, if_neg (by rintro ⟨-, hb⟩; rw [h.1] at hb; exact Bool.false_ne_true hb)]
    rw [ih h.2]

lemma goReplaceAllEmpty_length_le (pat : List Char) :
    ∀ s, (goReplaceAllEmpty pat s).length ≤ s.length := by
  suffices hsuf : ∀ n s, s.length ≤ n → (goReplaceAllEmpty pat s).length ≤ s.length by
    intro s
    exact hsuf s.length s le_rfl
  intro n
  induction n with
  | zero =>
    intro s hs
    have hnil : s = [] := List.eq_nil_of_length_eq_zero (Nat.le_zero.mp hs)
    subst hnil
    simp [goReplaceAllEmpty]
  | succ n ih =>
    intro s hs
    cases s with
    | nil => simp [goReplaceAllEmpty]
    | cons c rest =>
      by_cases hcond : pat ≠ [] ∧ pat.isPrefixOf (c :: rest) = true
      · rw [goReplaceAllEmpty, if_pos hcond]
        have hp : 0 < pat.length := List.length_pos.mpr hcond.1
        have hd : ((c :: rest).drop pat.length).length = (c :: rest).length - pat.length :=
          List.length_drop _ _
        have hle : ((c :: rest).drop pat.length).length ≤ n := by
          simp only [List.length_cons] at *
          omega
        have hrec := ih _ hle
        simp only [List.length_cons] at *
        omega
      · rw [goReplaceAllEmpty, if_neg hcond]
        have hle : rest.length ≤ n := by
          simp only [List.length_cons] at hs
          omega
        have hrec := ih rest hle
        simp only [List.length_cons]
        omega

lemma goReplaceAllEmpty_length_lt (pat : List Char) (hp : pat ≠ []) :
    ∀ s, hasOccurrence pat s = true → (goReplaceAllEmpty pat s).length < s.length := by
  intro s
  induction s with
  | nil =>
    intro h
    rw [hasOccurrence] at h
    exact absurd (List.isEmpty_iff.mp h) hp
  | cons c rest ih =>
    intro h
    by_cases hpre : pat.isPrefixOf (c :: rest) = true
    · rw [goReplaceAllEmpty, if_pos ⟨hp, hpre⟩]
      have h1 := goReplaceAllEmpty_length_le pat ((c :: rest).drop pat.length)
      have h2 : 0 < pat.length := List.length_pos.mpr hp
      have h3 : ((c :: rest).drop pat.length).length = (c :: rest).length - pat.length :=
        List.length_drop _ _
      simp only [List.length_cons] at *
      omega
    · rw [goReplaceAllEmpty, if_neg (by rintro ⟨-, hb⟩; exact hpre hb)]
      rw [hasOccurrence] at h
      rw [Bool.not_eq_true] at hpre
      rw [hpre, Bool.false_or] at h
      have := ih h
      simp only [List.length_cons]
      omega

/-- C7: in group mode, `getNamespaceNames` returns exactly one namespace
name per distinct group number observed in the roster, in first-seen order
(the first-seen deduplication of the non-sentinel group numbers), entries
with group `-1` contributing nothing; and on the roster
`[{group:1},{group:1},{group:2},{group:-1}]` with lab `demo` it returns
`["ns-demo-group-1", "ns-demo-group-2"]` in that order. -/
theorem C7_group_mode_dedup :
    (∀ (students : List Student) (labName : String),
      getNamespaceNames students labName false
        = (firstSeenDedup ((students.map Student.group).filter (fun g => g != -1))).map
            (fun g => "ns-" ++ labName ++ "-group-" ++ toString g)) ∧
    getNamespaceNames
        [⟨"i1", "A A", 1⟩, ⟨"i2", "B B", 1⟩, ⟨"i3", "C C", 2⟩, ⟨"i4", "D D", -1⟩]
        "demo" false
      = ["ns-demo-group-1", "ns-demo-group-2"] := by
  constructor
  · intro students labName
    rw [getNamespaceNames, if_neg (by simp), groupNamespacesLoop_eq]
    congr 2
    apply List.filter_congr
    intro g _
    simp
  · decide

/-- C8: `getNamespaceNames` is a pure function, and in individual mode
returns, for each roster entry in order, `ns-<labName>-<slug>` where the
slug is the display name lowercased with spaces replaced by hyphens; the
roster `[{name:"Jane Doe", group:-1}]` with lab `demo` yields
`["ns-demo-jane-doe"]`. -/
theorem C8_individual_mode_slugs :
    (∀ (students : List Student) (labName : String),
      getNamespaceNames students labName true
        = students.map (fun student => "ns-" ++ labName ++ "-" ++ spec_slug student.name)) ∧
    getNamespaceNames [⟨"s1", "Jane Doe", -1⟩] "demo" true = ["ns-demo-jane-doe"] := by
  constructor
  · intro students labName
    rw [getNamespaceNames, if_pos rfl]
    apply List.map_congr_left
    intro student _
    rw [studentSlug_eq_spec]
  · decide

/-- C9: the ensure step is idempotent — run twice on the same name, the
second run is a no-op (state unchanged), does not report the namespace as
new, and the total number of creation calls issued over both runs is one
when the namespace was initially absent and zero when it already existed;
an already-existing namespace is never reported as new. -/
theorem C9_ensure_idempotent :
    ∀ (s : NsCluster) (name : String),
      (ensureNamespace (ensureNamespace s name).1 name).1 = (ensureNamespace s name).1 ∧
      (ensureNamespace (ensureNamespace s name).1 name).2 = false ∧
      (ensureNamespace (ensureNamespace s name).1 name).1.createCalls
        = s.createCalls + (if namespaceExists s name then 0 else 1) ∧
      (ensureNamespace s name).2 = !namespaceExists s name := by
  intro s name
  by_cases h : namespaceExists s name
  · simp [ensureNamespace, h]
  · have h1 : ensureNamespace s name = (createNamespace s name, true) := by
      rw [ensureNamespace, if_neg h]
    have hafter : namespaceExists (createNamespace s name) name = true := by
      simp [namespaceExists, createNamespace]
    have h2 : ensureNamespace (createNamespace s name) name = (createNamespace s name, false) := by
      rw [ensureNamespace, if_pos hafter]
    simp only [h1, h2]
    refine ⟨trivial, trivial, ?_, by simp [h]⟩
    simp [createNamespace, h]

/-- C5: `deleteLab` deletes exactly the listed namespaces equal to
`ns-<labName>` or starting with `ns-<labName>-` and exactly the listed
cluster-scoped bindings starting with `read-namespaces-crb-<labName>-`,
and nothing else; on the first deletion error it stops immediately (the
deleted lists are the matching names strictly before the first failing
one, every later matching object stays undeleted, and the binding loop
never runs when the namespace loop aborts).  The concrete conjunct is the
spec's cascading-delete scenario. -/
theorem C5_deleteLab_exact_and_abort :
    (∀ (labName : String) (namespaces crbs : List String)
        (nsDeleteFails crbDeleteFails : String → Bool),
      deleteLab labName namespaces crbs nsDeleteFails crbDeleteFails
        = (if (namespaces.filter (deleteNsMatches labName)).any nsDeleteFails then
            ((namespaces.filter (deleteNsMatches labName)).takeWhile
              (fun n => !nsDeleteFails n), [], true)
           else
            (namespaces.filter (deleteNsMatches labName),
             (crbs.filter (deleteCrbMatches labName)).takeWhile (fun n => !crbDeleteFails n),
             (crbs.filter (deleteCrbMatches labName)).any crbDeleteFails))) ∧
    deleteLab "demo"
        ["kube-system", "ns-demo", "ns-demo-jane-doe", "ns-demo-group-1", "ns-demox", "ns-other"]
        ["read-namespaces-crb-demo-jane-doe", "read-namespaces-crb-other-x", "cluster-admin-crb"]
        (fun _ => false) (fun _ => false)
      = (["ns-demo", "ns-demo-jane-doe", "ns-demo-group-1"],
         ["read-namespaces-crb-demo-jane-doe"], false) := by
  constructor
  · intro labName namespaces crbs nsDeleteFails crbDeleteFails
    by_cases he : (namespaces.filter (deleteNsMatches labName)).any nsDeleteFails
    · simp [deleteLab, deleteMatchingLoop_eq, he]
    · have he' : (namespaces.filter (deleteNsMatches labName)).any nsDeleteFails = false := by
        simpa using he
      simp [deleteLab, deleteMatchingLoop_eq, he',
        takeWhile_eq_self_of_not_any _ _ he']
  · decide

/-- C10: the orchestrator recovers a tenant key from its namespace name by
deleting every occurrence of `ns-<labName>-`; the round trip
key ↦ `ns-<labName>-<key>` ↦ recovered key returns the original key
exactly when the key does not contain `ns-<labName>-` as a substring (so a
key that does contain it — e.g. the slug `ns-demo-x` under lab `demo` —
comes back changed, here as `x`). -/
theorem C10_tenant_key_round_trip :
    (∀ (labName : String) (key : List Char),
      usernameFromNamespace labName (nsKeyDelim labName ++ key) = key
        ↔ hasOccurrence (nsKeyDelim labName) key = false) ∧
    usernameFromNamespace "demo" (nsKeyDelim "demo" ++ "ns-demo-x".data) = "x".data := by
  have hp : ∀ labName : String, nsKeyDelim labName ≠ [] := by
    intro labName
    have hd : nsKeyDelim labName = ("ns-".data ++ labName.data) ++ "-".data := rfl
    rw [hd]
    intro hcon
    have h2 := List.append_eq_nil.mp hcon
    have h3 := List.append_eq_nil.mp h2.1
    exact absurd h3.1 (by decide)
  constructor
  · intro labName key
    constructor
    · intro heq
      by_contra hocc
      rw [Bool.not_eq_false] at hocc
      have hlt := goReplaceAllEmpty_length_lt (nsKeyDelim labName) (hp labName) key hocc
      rw [usernameFromNamespace, goReplaceAllEmpty_cancel _ _ (hp labName)] at heq
      rw [heq] at hlt
      exact lt_irrefl _ hlt
    · intro hocc
      rw [usernameFromNamespace, goReplaceAllEmpty_cancel _ _ (hp labName)]
      exact goReplaceAllEmpty_of_not_occur _ _ hocc
  · have hsplit : ("ns-demo-x".data : List Char) = nsKeyDelim "demo" ++ "x".data := by decide
    rw [usernameFromNamespace, hsplit, goReplaceAllEmpty_cancel _ _ (hp "demo"),
      goReplaceAllEmpty_cancel _ _ (hp "demo")]
    exact goReplaceAllEmpty_of_not_occur _ _ (by decide)

/-- C3 counterexample: the bootstrap does create the role when absent, but
the role's single rule names only the core API group (`APIGroups: [""]`),
so it does not grant `get` on `namespaces` in, e.g., the `apps` API group —
refuting "across all API groups". -/
theorem C3_counterexample_core_group_only :
    (createNamespaceClusterRoleIfNotExists ⟨[], 0⟩).clusterRoles
        = [readNamespacesClusterRoleDef] ∧
    roleGrants readNamespacesClusterRoleDef "" "get" "namespaces" = true ∧
    roleGrants readNamespacesClusterRoleDef "" "list" "namespaces" = true ∧
    roleGrants readNamespacesClusterRoleDef "apps" "get" "namespaces" = false := by
  refine ⟨?_, by decide, by decide, by decide⟩
  rw [createNamespaceClusterRoleIfNotExists, if_neg (by decide)]
  rfl

/-- C3 (amended): the process-start bootstrap creates the cluster-wide
read-only role only when the existence check reports it absent (so running
it again is a no-op and at most one creation call is ever issued), and the
role it creates grants exactly the verbs `get` and `list` on the
`namespaces` resource in the core (`""`) API group — not across all API
groups. -/
theorem C3_cluster_read_role_bootstrap :
    ∀ s : RbacCluster,
      (createNamespaceClusterRoleIfNotExists s).createCalls
          = s.createCalls + (if readNamespaceClusterRoleExists s then 0 else 1) ∧
      createNamespaceClusterRoleIfNotExists (createNamespaceClusterRoleIfNotExists s)
          = createNamespaceClusterRoleIfNotExists s ∧
      readNamespacesClusterRoleDef.rules
          = [{ apiGroups := [""], verbs := ["get", "list"], resources := ["namespaces"] }] ∧
      roleGrants readNamespacesClusterRoleDef "" "get" "namespaces" = true ∧
      roleGrants readNamespacesClusterRoleDef "" "list" "namespaces" = true ∧
      roleGrants readNamespacesClusterRoleDef "apps" "get" "namespaces" = false := by
  intro s
  refine ⟨?_, ?_, rfl, by decide, by decide, by decide⟩
  · by_cases h : readNamespaceClusterRoleExists s <;>
      simp [createNamespaceClusterRoleIfNotExists, h, createReadNamespacesClusterRole]
  · by_cases h : readNamespaceClusterRoleExists s
    · have h1 : createNamespaceClusterRoleIfNotExists s = s := by
        rw [createNamespaceClusterRoleIfNotExists, if_pos h]
      rw [h1]
      exact h1
    · have h1 : createNamespaceClusterRoleIfNotExists s = createReadNamespacesClusterRole s := by
        rw [createNamespaceClusterRoleIfNotExists, if_neg h]
      have h2 : readNamespaceClusterRoleExists (createReadNamespacesClusterRole s) = true := by
        simp [readNamespaceClusterRoleExists, createReadNamespacesClusterRole,
          readNamespacesClusterRoleDef]
      rw [h1, createNamespaceClusterRoleIfNotExists, if_pos h2]

/-- C1: for a well-formed manifest stream (every document carries a
metadata section, the stream ends at end-of-stream), `handleManifest`
succeeds and its creation list is exactly: each singleton document created
once with namespace `ns-<labName>` — and only when the lab namespace did
not already exist (`labExists = false`) — followed by, for each
non-singleton document, one creation per newly created namespace with the
namespace field overwritten to that namespace. -/
theorem C1_manifest_distribution
    (docs : List ManifestDoc) (labName : String) (namespaces : List String)
    (labExists : Bool) (h : ∀ d ∈ docs, d.metadata.isSome) :
    handleManifest ⟨docs, .eof⟩ labName namespaces labExists
      = ((if labExists then [] else
            (docs.filter isSingletonDoc).map (fun d => ⟨d.name, "ns-" ++ labName⟩))
          ++ (docs.filter (fun d => !isSingletonDoc d)).flatMap
              (fun d => namespaces.map (fun n => ⟨d.name, n⟩)),
         .ok ()) := by
  cases labExists with
  | true =>
    rw [handleManifest]
    simp [perNamespacePass_eq namespaces docs h]
  | false =>
    rw [handleManifest]
    simp [singletonPass_eq labName docs h, perNamespacePass_eq namespaces docs h]

/-- C1 witness: one singleton and one non-singleton document distributed
over two newly created namespaces with a fresh lab yields exactly one
object in the lab namespace and exactly two objects (same name, distinct
namespaces) from the non-singleton document. -/
theorem C1_manifest_distribution_witness :
    handleManifest
        ⟨[⟨"cm-single", some ⟨some true⟩⟩, ⟨"cm-per", some ⟨some false⟩⟩], .eof⟩
        "demo" ["ns-demo-jane-doe", "ns-demo-group-1"] false
      = ([⟨"cm-single", "ns-demo"⟩,
          ⟨"cm-per", "ns-demo-jane-doe"⟩, ⟨"cm-per", "ns-demo-group-1"⟩], .ok ()) :=
  (C1_manifest_distribution
      [⟨"cm-single", some ⟨some true⟩⟩, ⟨"cm-per", some ⟨some false⟩⟩]
      "demo" ["ns-demo-jane-doe", "ns-demo-group-1"] false
      (by decide)).trans (by rfl)

/-- C2: a decode error does abort the singleton pass with that error
(second conjunct, `labExists = false`: no object is created and the decode
failure is returned), but in the per-namespace pass it is swallowed — with
`labExists = true` the same malformed tail is reached after the
non-singleton document was applied, the loop's local `err` shadows the
outer `err` checked after the loop, and `handleManifest` returns success
(first conjunct), contradicting the claim that both passes abort. -/
theorem C2_decode_error_swallowed_in_second_pass :
    handleManifest ⟨[⟨"cm-per", some ⟨some false⟩⟩], .decodeError 42⟩
        "demo" ["ns-demo-a"] true
      = ([⟨"cm-per", "ns-demo-a"⟩], .ok ())
    ∧ handleManifest ⟨[⟨"cm-per", some ⟨some false⟩⟩], .decodeError 42⟩
        "demo" ["ns-demo-a"] false
      = ([], .error (.decodeFailure 42)) := by
  constructor
  · rfl
  · rfl

/-- C4: a document whose metadata section carries no `single_instance`
flag defaults to singleton and is created once in the lab namespace, not
replicated (second conjunct); but a document with no metadata section at
all does not default — the type assertion panics and no object is created
(first conjunct), contradicting the claim's "or whose metadata section is
absent entirely". -/
theorem C4_flag_default_vs_missing_metadata :
    handleManifest ⟨[⟨"cm-a", none⟩], .eof⟩ "demo" ["ns-demo-x"] false
      = ([], .error .panicInterfaceConversion)
    ∧ handleManifest ⟨[⟨"cm-b", some ⟨none⟩⟩], .eof⟩ "demo" ["ns-demo-x"] false
      = ([⟨"cm-b", "ns-demo"⟩], .ok ()) := by
  constructor
  · rfl
  · rfl

/-- C6: `createServiceAccount` returns any creation error immediately
(first conjunct); when the first `k` re-fetches report no secrets and the
`k`-th reports one, any fuel beyond `k` yields the same result — the
outcome of fetching that first secret and reading its `token` field — so
the loop terminates with the token, independently of any retry bound
(second conjunct); a re-fetch error likewise aborts with that error (third
conjunct); and when every re-fetch reports no secrets, the call never
returns, for any amount of fuel (fourth conjunct). -/
theorem C6_service_account_polling :
    (∀ (env : SAEnv) (fuel : Nat) (e : String),
      env.createResult = .error e → createServiceAccount env fuel = some (.error e)) ∧
    (∀ (env : SAEnv) (k : Nat) (s : String) (rest : List String),
      env.createResult = .ok () →
      (∀ j, j < k → env.fetchResult j = .ok []) →
      env.fetchResult k = .ok (s :: rest) →
      ∀ fuel, k < fuel →
        createServiceAccount env fuel
          = some (Except.map (fun secret => secret.getData "token") (env.getSecret s))) ∧
    (∀ (env : SAEnv) (k : Nat) (e : String),
      env.createResult = .ok () →
      (∀ j, j < k → env.fetchResult j = .ok []) →
      env.fetchResult k = .error e →
      ∀ fuel, k < fuel → createServiceAccount env fuel = some (.error e)) ∧
    (∀ (env : SAEnv),
      env.createResult = .ok () →
      (∀ n, env.fetchResult n = .ok []) →
      ∀ fuel, createServiceAccount env fuel = none) := by
  refine ⟨?_, ?_, ?_, ?_⟩
  · intro env fuel e hc
    rw [createServiceAccount, hc]
  · intro env k s rest hc h hk fuel hfuel
    rw [createServiceAccount, hc, pollSecrets_finds env k fuel s rest h hk hfuel]
    show (match env.getSecret s with
      | .error e => some (.error e)
      | .ok secret => some (.ok (secret.getData "token")))
      = some (Except.map (fun secret => secret.getData "token") (env.getSecret s))
    cases env.getSecret s with
    | error e => rfl
    | ok secret => rfl
  · intro env k e hc h hk fuel hfuel
    rw [createServiceAccount, hc, pollSecrets_errors env k fuel e h hk hfuel]
  · intro env hc h fuel
    rw [createServiceAccount, hc, pollSecrets_diverges env h fuel 0]

/-- Concrete polling environment: the first two re-fetches report no
secrets, the third reports one secret whose token field is `tok-123`. -/
def saEnvEventual : SAEnv :=
  { createResult := .ok ()
    fetchResult := fun n => if n < 2 then .ok [] else .ok ["sa-secret-1"]
    getSecret := fun name =>
      if name == "sa-secret-1" then .ok ⟨[("token", "tok-123")]⟩ else .error "secret not found" }

/-- Concrete polling environment in which no secret ever materializes. -/
def saEnvNever : SAEnv :=
  { createResult := .ok ()
    fetchResult := fun _ => .ok []
    getSecret := fun _ => .error "secret not found" }

/-- C6 witness: in `saEnvEventual` the call terminates (with any fuel
beyond the decisive third fetch) and returns the token; in `saEnvNever` it
has not returned even after 1000 iterations. -/
theorem C6_service_account_polling_witness :
    createServiceAccount saEnvEventual 3 = some (.ok "tok-123")
    ∧ createServiceAccount saEnvEventual 500 = some (.ok "tok-123")
    ∧ createServiceAccount saEnvNever 1000 = none := by
  refine ⟨?_, ?_, ?_⟩
  · have h := C6_service_account_polling.2.1 saEnvEventual 2 "sa-secret-1" [] rfl
      (by intro j hj; interval_cases j <;> rfl) rfl 3 (by omega)
    rw [h]
    rfl
  · have h := C6_service_account_polling.2.1 saEnvEventual 2 "sa-secret-1" [] rfl
      (by intro j hj; interval_cases j <;> rfl) rfl 500 (by omega)
    rw [h]
    rfl
  · exact C6_service_account_polling.2.2.2 saEnvNever rfl (fun n => rfl) 1000
